import Mathlib

/-!
Shallow embedding of `src/rypersensitivity.js` (an aim-tracking control
pipeline) and verification of its specification claims.

Numbers are modelled as exact rationals (`ℚ`).  The only operation of the
source that has no exact rational counterpart is `Math.sqrt`; every
definition that needs it takes an explicit `sqrtQ : ℚ → ℚ` parameter
standing for the square-root function, and every theorem is proved for an
arbitrary `sqrtQ`.  Concrete witnesses instantiate `sqrtQ` with `ratSqrt`,
which agrees with the real square root on the perfect-square inputs used.

Wall-clock reads (`Date.now()`) are modelled by passing the current time or
the elapsed time explicitly, as the spec's design notes prescribe; the
stochastic draw `Math.random()` in `SmartAutoFire.fire` is modelled by an
explicit `rnd` parameter.
-/

/-- Exact rational square root for perfect squares: used to instantiate the
`sqrtQ` parameter in witnesses, on inputs whose reduced numerator and
denominator are perfect squares (where it coincides with `Math.sqrt`). -/
def ratSqrt (q : ℚ) : ℚ :=
  (Nat.sqrt q.num.toNat : ℚ) / (Nat.sqrt q.den : ℚ)

namespace Ryper

/-- Embeds the `Vector3` class: three rational components. -/
structure Vector3 where
  x : ℚ
  y : ℚ
  z : ℚ

/-- Embeds `new Vector3()` (all components default to 0). -/
def Vector3.zero : Vector3 := ⟨0, 0, 0⟩

/-- Embeds `Vector3.add`. -/
def Vector3.add (a b : Vector3) : Vector3 := ⟨a.x + b.x, a.y + b.y, a.z + b.z⟩

/-- Embeds `Vector3.subtract`. -/
def Vector3.subtract (a b : Vector3) : Vector3 := ⟨a.x - b.x, a.y - b.y, a.z - b.z⟩

/-- Embeds `Vector3.multiply` (scale by scalar). -/
def Vector3.multiply (a : Vector3) (s : ℚ) : Vector3 := ⟨a.x * s, a.y * s, a.z * s⟩

/-- Embeds `Vector3.lerp`: `this.add(v.subtract(this).multiply(t))`. -/
def Vector3.lerp (a v : Vector3) (t : ℚ) : Vector3 :=
  a.add ((v.subtract a).multiply t)

/-- Embeds `Vector3.length`: `Math.sqrt(x*x + y*y + z*z)`, with `Math.sqrt`
abstracted as `sqrtQ`. -/
def Vector3.length (sqrtQ : ℚ → ℚ) (a : Vector3) : ℚ :=
  sqrtQ (a.x * a.x + a.y * a.y + a.z * a.z)

/-- Embeds `Vector3.distanceTo`: `Math.sqrt(dx*dx + dy*dy + dz*dz)`. -/
def Vector3.distanceTo (sqrtQ : ℚ → ℚ) (a v : Vector3) : ℚ :=
  sqrtQ ((a.x - v.x) * (a.x - v.x) + (a.y - v.y) * (a.y - v.y) +
         (a.z - v.z) * (a.z - v.z))

/-- Embeds the configuration object fields consumed by the components that
the claims concern (`EnhancedConfig` supplies concrete values; components
only read the fields below). -/
structure Config where
  dragForce : ℚ
  maxDistance : ℚ
  longRangeMultiplier : ℚ
  smoothingFactor : ℚ
  snapThreshold : ℚ
  velocityThreshold : ℚ
  enableSnap : Bool
  targetTimeout : ℚ
  maxTargetDistance : ℚ
  headLockOnly : Bool
  instantSwitch : Bool
  switchDelay : ℚ
  fireRate : ℚ
  maxFireDistance : ℚ
  minAccuracy : ℚ
  fireOnLock : Bool
  minLockTime : ℚ

/-- Embeds the mutable part of `AdvancedKalmanFilter`: parameters `R`, `Q`,
`processNoise`, the state `[position, velocity]` (`pos`, `vel`), the 2×2
covariance (`p00 p01 / p10 p11`) and the initialized flag.  The `lastTime`
field is dropped: elapsed time is passed explicitly to `update`. -/
structure AdvancedKalmanFilter where
  R : ℚ
  Q : ℚ
  processNoise : ℚ
  pos : ℚ
  vel : ℚ
  p00 : ℚ
  p01 : ℚ
  p10 : ℚ
  p11 : ℚ
  isInitialized : Bool

/-- Embeds `AdvancedKalmanFilter.predict(dt)` (source lines 61–83).  Note the
source's covariance propagation: `newCov[0][0] = P00 + dt*P10 + processNoise`
(it uses `covariance[1][0]` only, there is no `dt*P01` term). -/
def AdvancedKalmanFilter.predict (k : AdvancedKalmanFilter) (dt : ℚ) :
    AdvancedKalmanFilter :=
  if k.isInitialized = false then k
  else
    { k with
      pos := k.pos + k.vel * dt
      p00 := k.p00 + dt * k.p10 + k.processNoise
      p01 := k.p01 + dt * k.p11
      p10 := k.p10
      p11 := k.p11 + k.processNoise }

/-- Embeds `AdvancedKalmanFilter.update(measurement)` (source lines 85–118),
returning the new filter state and the returned estimate.  The source reads
`Date.now()` to derive `dt`; here `dt` is the explicit elapsed time. -/
def AdvancedKalmanFilter.update (k : AdvancedKalmanFilter) (dt m : ℚ) :
    AdvancedKalmanFilter × ℚ :=
  if k.isInitialized = false then
    ({ k with pos := m, vel := 0, isInitialized := true }, m)
  else
    let k1 := k.predict dt
    let S := k1.p00 + k1.R
    let K0 := k1.p00 / S
    let K1 := k1.p10 / S
    let residual := m - k1.pos
    let pos1 := k1.pos + K0 * residual
    let vel1 := k1.vel + K1 * residual
    ({ k1 with
       pos := pos1
       vel := vel1
       p00 := (1 - K0) * k1.p00
       p01 := (1 - K0) * k1.p01
       p10 := k1.p10 - K1 * k1.p00
       p11 := k1.p11 - K1 * k1.p01 }, pos1)

/-- Embeds the mutable part of `EnhancedDragLock`: the internal velocity and
the last commanded position (`lastTime` plays no role in `applyDragLock`). -/
structure EnhancedDragLock where
  velocity : Vector3
  lastPosition : Vector3

/-- Embeds `EnhancedDragLock.applyDragLock(currentPos, targetPos, deltaTime)`
(source lines 146–173), returning the new controller state and the returned
position.  The velocity blend happens before the snap test; on the snap
branch `lastPosition` is left untouched. -/
def EnhancedDragLock.applyDragLock (sqrtQ : ℚ → ℚ) (cfg : Config)
    (s : EnhancedDragLock) (currentPos targetPos : Vector3) (deltaTime : ℚ) :
    EnhancedDragLock × Vector3 :=
  let delta := targetPos.subtract currentPos
  let distance := delta.length sqrtQ
  let force := if distance > cfg.maxDistance then
    cfg.dragForce * cfg.longRangeMultiplier else cfg.dragForce
  let targetVelocity := delta.multiply force
  let velocity := s.velocity.lerp targetVelocity cfg.smoothingFactor
  let movement := velocity.multiply deltaTime
  let next := currentPos.add movement
  if distance < cfg.snapThreshold ∧ velocity.length sqrtQ < cfg.velocityThreshold ∧
      cfg.enableSnap = true then
    ({ s with velocity := velocity }, targetPos)
  else
    ({ velocity := velocity, lastPosition := next }, next)

/-- Embeds the body of the `for` loop of `TargetPredictor.predictPosition`
(source lines 207–213): sum, over consecutive samples, of the velocity
`(p_i - p_(i-1)) * (1/dt)` for the pairs whose `dt = (t_i - t_(i-1))/1000`
is positive (other pairs contribute nothing). -/
def velocitySum : List (Vector3 × ℚ) → Vector3
  | a :: b :: rest =>
    let dt := (b.2 - a.2) / 1000
    (if dt > 0 then (b.1.subtract a.1).multiply (1 / dt) else Vector3.zero).add
      (velocitySum (b :: rest))
  | _ => Vector3.zero

/-- Embeds `TargetPredictor.predictPosition(timeAhead)` (source lines
198–220) over a history of (position, timestamp-in-ms) samples.  The
averaged sum is divided by `recent.length - 1`, the number of consecutive
pairs, whether or not some pairs were skipped for non-positive `dt`. -/
def predictPosition (hist : List (Vector3 × ℚ)) (timeAhead : ℚ) : Vector3 :=
  if hist.length < 2 then
    match hist with
    | [] => Vector3.zero
    | s :: _ => s.1
  else
    let recent := hist.drop (hist.length - 3)
    let avgVelocity := (velocitySum recent).multiply (1 / ((recent.length : ℚ) - 1))
    let currentPos := (hist.get? (hist.length - 1)).map Prod.fst |>.getD Vector3.zero
    currentPos.add (avgVelocity.multiply timeAhead)

/-- Embeds a tracked target of `EnhancedTargetManager` (source lines
237–250): id, position, priority, category tag, last-seen time, visibility,
health and the cached distance. -/
structure Target where
  id : ℕ
  position : Vector3
  priority : ℚ
  targetType : String
  lastSeen : ℚ
  isVisible : Bool
  health : ℚ
  distance : ℚ

/-- Embeds the mutable part of `EnhancedTargetManager`: the target list, the
current selection and the switch cooldown. -/
structure TMState where
  targets : List Target
  currentTarget : Option Target
  switchCooldown : ℚ

/-- Embeds the validity filter of `getBestTarget` (source lines 274–279):
visible, seen less than `targetTimeout` ago, positive health. -/
def isValidTarget (cfg : Config) (now : ℚ) (t : Target) : Bool :=
  t.isVisible && decide (now - t.lastSeen < cfg.targetTimeout) &&
    decide (t.health > 0)

/-- Embeds the distance refresh of `getBestTarget` (source lines 284–286). -/
def withDistance (sqrtQ : ℚ → ℚ) (cameraPos : Vector3) (t : Target) : Target :=
  { t with distance := cameraPos.distanceTo sqrtQ t.position }

/-- Embeds `EnhancedTargetManager.calculateTargetScore(target, cameraPos)`
(source lines 312–331); `cur` is the manager's current selection (used for
the sticky bonus).  The source's `this.config.maxTargetDistance || 50`
falls back to 50 when the configured value is falsy (0). -/
def calculateTargetScore (cfg : Config) (cur : Option Target) (t : Target) : ℚ :=
  let maxDistance := if cfg.maxTargetDistance = 0 then 50 else cfg.maxTargetDistance
  let distanceFactor := max 0 (1 - t.distance / maxDistance)
  t.priority * 100 + distanceFactor * 50 +
    (if t.targetType = "head" ∧ cfg.headLockOnly = true then 30 else 0) +
    (match cur with
     | some c => if c.id = t.id then 20 else 0
     | none => 0)

/-- Embeds the selection loop of `getBestTarget` (source lines 289–298):
running best and best score, strict-greater comparison. -/
def pickBestAux (cfg : Config) (cur : Option Target) (b : Target) (bs : ℚ) :
    List Target → Target
  | [] => b
  | t :: ts =>
    let s := calculateTargetScore cfg cur t
    if s > bs then pickBestAux cfg cur t s ts else pickBestAux cfg cur b bs ts

/-- Embeds `bestTarget = validTargets[0]` followed by the selection loop. -/
def pickBest (cfg : Config) (cur : Option Target) : List Target → Option Target
  | [] => none
  | t :: ts => some (pickBestAux cfg cur t (calculateTargetScore cfg cur t) ts)

/-- Embeds the target-switching logic of `getBestTarget` (source lines
300–309): hysteresis while the cooldown is active, otherwise commit the
switch and arm the cooldown. -/
def switchLogic (cfg : Config) (st : TMState) (newTargets : List Target)
    (best : Target) : TMState × Option Target :=
  match st.currentTarget with
  | some c =>
    if c.id ≠ best.id then
      if st.switchCooldown > 0 ∧ cfg.instantSwitch = false then
        ({ st with targets := newTargets }, some c)
      else
        let st1 : TMState :=
          { targets := newTargets, currentTarget := some best,
            switchCooldown := cfg.switchDelay }
        (st1, some best)
    else ({ st with targets := newTargets, currentTarget := some best }, some best)
  | none => ({ st with targets := newTargets, currentTarget := some best }, some best)

/-- Embeds `EnhancedTargetManager.getBestTarget(cameraPos)` (source lines
268–310), returning the new manager state and the returned target.  The
source's `forEach` refreshes the distance of the valid targets in place
through aliases; here the refreshed list is rebuilt explicitly.  The stored
current selection is kept as a snapshot of the target object, as the source
keeps an object reference. -/
def getBestTarget (sqrtQ : ℚ → ℚ) (cfg : Config) (st : TMState)
    (cameraPos : Vector3) (now : ℚ) : TMState × Option Target :=
  if st.targets.isEmpty then (st, none)
  else
    let valid := st.targets.filter (isValidTarget cfg now)
    if valid.isEmpty then (st, none)
    else
      let validD := valid.map (withDistance sqrtQ cameraPos)
      let newTargets := st.targets.map fun t =>
        if isValidTarget cfg now t then withDistance sqrtQ cameraPos t else t
      match pickBest cfg st.currentTarget validD with
      | none => (st, none)
      | some best => switchLogic cfg st newTargets best

/-- Embeds the mutable part of `SmartAutoFire`: last fire time, consecutive
hit counter and the adaptive accuracy scalar. -/
structure SmartAutoFire where
  lastFireTime : ℚ
  consecutiveHits : ℕ
  accuracy : ℚ

/-- Embeds `SmartAutoFire.canFire(targetDistance, aimAccuracy)` (source
lines 418–432); `now` stands for the `Date.now()` read. -/
def SmartAutoFire.canFire (cfg : Config) (s : SmartAutoFire) (now : ℚ)
    (targetDistance aimAccuracy : ℚ) : Bool :=
  if now - s.lastFireTime < cfg.fireRate then false
  else if targetDistance > cfg.maxFireDistance then false
  else if aimAccuracy < cfg.minAccuracy then false
  else true

/-- Embeds `SmartAutoFire.fire(target, aimAccuracy)` (source lines 434–452),
returning the new trigger state and the hit/miss result.  The source passes
the whole target and reads `target.distance`; here the distance is passed
directly.  The draw `Math.random()` is the explicit `rnd` parameter and the
hit test `Math.random() < hitChance` becomes `rnd < hitChance`. -/
def SmartAutoFire.fire (cfg : Config) (s : SmartAutoFire) (now : ℚ)
    (targetDistance aimAccuracy rnd : ℚ) : SmartAutoFire × Bool :=
  if s.canFire cfg now targetDistance aimAccuracy = false then (s, false)
  else
    let hitChance := aimAccuracy * s.accuracy
    let hit := rnd < hitChance
    if hit then
      ({ s with lastFireTime := now, consecutiveHits := s.consecutiveHits + 1 }, true)
    else
      ({ s with lastFireTime := now, consecutiveHits := 0 }, false)

/-- Embeds the auto-fire block of `EnhancedAimLockEngine.updateAimLock`
(source lines 556–563): when fire-on-lock is enabled and the lock duration
exceeds the minimum lock time, invoke `fire`; only when it reports a hit,
increment the shot counter, and additionally the hit counter when the
current accuracy exceeds 0.9.  Returns the new trigger state and the new
(shots, hits) counters. -/
def autoFireStep (cfg : Config) (af : SmartAutoFire) (now : ℚ)
    (lockDuration currentAccuracy targetDistance rnd : ℚ)
    (totalShots totalHits : ℕ) : SmartAutoFire × ℕ × ℕ :=
  if cfg.fireOnLock = true ∧ lockDuration > cfg.minLockTime then
    let fr := af.fire cfg now targetDistance currentAccuracy rnd
    if fr.2 = true then
      (fr.1, totalShots + 1,
        if currentAccuracy > 9/10 then totalHits + 1 else totalHits)
    else (fr.1, totalShots, totalHits)
  else (af, totalShots, totalHits)

/-- Embeds `EnhancedAimLockEngine.getHitRate` (source lines 585–587). -/
def getHitRate (totalShots totalHits : ℕ) : ℚ :=
  if totalShots > 0 then (totalHits : ℚ) / (totalShots : ℚ) else 0


/-- Filter state reached from a freshly initialized estimator (the state an
`update` call leaves behind: identity covariance, initialized). -/
def freshKalman : AdvancedKalmanFilter :=
  { R := 1/250, Q := 1/100, processNoise := 1/10, pos := 5, vel := 0,
    p00 := 1, p01 := 0, p10 := 0, p11 := 1, isInitialized := true }

/-- Filter state after one `predict(1)` from `freshKalman`; its off-diagonal
covariance entry `p01` is 1, nonzero. -/
def kalmanAfterPredict : AdvancedKalmanFilter := freshKalman.predict 1

/-- C1 counterexample: at the reachable covariance with `P01 = 1` (one
`predict(1)` after initialization), a further `predict(1)` does not satisfy
the claimed relation `P00' = P00 + dt*P10 + dt*P01 + processNoise`; the code
computes `P00 + dt*P10 + processNoise`, without the `dt*P01` term. -/
theorem predict_claimed_P00_relation_false :
    ¬ ((kalmanAfterPredict.predict 1).p00 =
        kalmanAfterPredict.p00 + 1 * kalmanAfterPredict.p10 +
        1 * kalmanAfterPredict.p01 + kalmanAfterPredict.processNoise) := by
  norm_num [kalmanAfterPredict, freshKalman, AdvancedKalmanFilter.predict]

/-- C1 (amended): for an initialized `AxisEstimator`, `predict(dt)` leaves
velocity and `P10` unchanged, sets position to `position + velocity*dt`, and
updates the covariance by `P00' = P00 + dt*P10 + processNoise` (no `dt*P01`
term), `P01' = P01 + dt*P11`, `P11' = P11 + processNoise`; if uninitialized,
`predict(dt)` changes nothing. -/
theorem predict_characterization (k : AdvancedKalmanFilter) (dt : ℚ) :
    (k.isInitialized = true →
      (k.predict dt).vel = k.vel ∧
      (k.predict dt).p10 = k.p10 ∧
      (k.predict dt).pos = k.pos + k.vel * dt ∧
      (k.predict dt).p00 = k.p00 + dt * k.p10 + k.processNoise ∧
      (k.predict dt).p01 = k.p01 + dt * k.p11 ∧
      (k.predict dt).p11 = k.p11 + k.processNoise) ∧
    (k.isInitialized = false → k.predict dt = k) := by
  constructor
  · intro h
    simp [AdvancedKalmanFilter.predict, h]
  · intro h
    simp [AdvancedKalmanFilter.predict, h]

/-- Witness for `predict_characterization` at the concrete state
`freshKalman` and `dt = 1`. -/
theorem predict_characterization_witness :
    freshKalman.isInitialized = true ∧
    (freshKalman.predict 1).p00 =
      freshKalman.p00 + 1 * freshKalman.p10 + freshKalman.processNoise :=
  ⟨rfl, ((predict_characterization freshKalman 1).1 rfl).2.2.2.1⟩

/-- Uninitialized estimator as built by the `AdvancedKalmanFilter`
constructor with the `EnhancedConfig` parameters `R = 0.004`, `Q = 0.01`. -/
def freshUninitKalman : AdvancedKalmanFilter :=
  { R := 1/250, Q := 1/100, processNoise := 1/10, pos := 0, vel := 0,
    p00 := 1, p01 := 0, p10 := 0, p11 := 1, isInitialized := false }

/-- C4: calling `update(m)` on an uninitialized `AxisEstimator` sets the
state to `[m, 0]`, marks it initialized, returns exactly `m`, and touches
nothing else (no filtering on the first sample). -/
theorem update_first_sample (k : AdvancedKalmanFilter) (dt m : ℚ)
    (h : k.isInitialized = false) :
    k.update dt m = ({ k with pos := m, vel := 0, isInitialized := true }, m) := by
  simp [AdvancedKalmanFilter.update, h]

/-- Witness for `update_first_sample` at the concrete uninitialized filter
and measurement 7. -/
theorem update_first_sample_witness :
    freshUninitKalman.isInitialized = false ∧
    (freshUninitKalman.update (1/60) 7).2 = 7 ∧
    (freshUninitKalman.update (1/60) 7).1.vel = 0 ∧
    (freshUninitKalman.update (1/60) 7).1.isInitialized = true :=
  ⟨rfl, by rw [update_first_sample freshUninitKalman (1/60) 7 rfl],
    by rw [update_first_sample freshUninitKalman (1/60) 7 rfl],
    by rw [update_first_sample freshUninitKalman (1/60) 7 rfl]⟩

/-- Configuration mirroring the source's `EnhancedConfig` literal (the
fields the embedded components read). -/
def enhancedConfig : Config :=
  { dragForce := 5, maxDistance := 99999, longRangeMultiplier := 12/10,
    smoothingFactor := 1/1000, snapThreshold := 14/10000,
    velocityThreshold := 1/10, enableSnap := true, targetTimeout := 2000,
    maxTargetDistance := 99999, headLockOnly := true, instantSwitch := false,
    switchDelay := 200, fireRate := 60, maxFireDistance := 99999,
    minAccuracy := 0, fireOnLock := true, minLockTime := 1/100 }

/-- C6: a `fire` call whose gate fails — the rate interval has not elapsed,
or the distance or alignment-quality gate fails — returns failure and leaves
the trigger state entirely unchanged (in particular the last-fire timestamp
is not altered). -/
theorem fire_gated_noop (cfg : Config) (s : SmartAutoFire)
    (now dist acc rnd : ℚ)
    (h : now - s.lastFireTime < cfg.fireRate ∨ dist > cfg.maxFireDistance ∨
      acc < cfg.minAccuracy) :
    s.fire cfg now dist acc rnd = (s, false) := by
  have hcf : s.canFire cfg now dist acc = false := by
    rcases h with h | h | h <;> simp [SmartAutoFire.canFire, h]
  simp [SmartAutoFire.fire, hcf]

/-- Trigger state with a recent last fire, for the rate-limit witness. -/
def fireState0 : SmartAutoFire :=
  { lastFireTime := 1000, consecutiveHits := 3, accuracy := 1/2 }

/-- Witness for `fire_gated_noop`: a second fire 30 ms after the last one,
under the 60 ms rate interval, is a no-op. -/
theorem fire_gated_noop_witness :
    (1030 : ℚ) - fireState0.lastFireTime < enhancedConfig.fireRate ∧
    fireState0.fire enhancedConfig 1030 10 (1/2) (1/2) = (fireState0, false) :=
  ⟨by norm_num [fireState0, enhancedConfig],
    fire_gated_noop enhancedConfig fireState0 1030 10 (1/2) (1/2)
      (Or.inl (by norm_num [fireState0, enhancedConfig]))⟩

/-- C9: `getHitRate` never divides by zero: it returns
`totalHits/totalShots` when `totalShots > 0` and 0 when `totalShots = 0`. -/
theorem getHitRate_no_div_by_zero (s h : ℕ) :
    (0 < s → getHitRate s h = (h : ℚ) / (s : ℚ)) ∧
    (s = 0 → getHitRate s h = 0) := by
  constructor
  · intro hs
    simp [getHitRate, hs]
  · intro hs
    simp [getHitRate, hs]

/-- Witness for `getHitRate_no_div_by_zero` at 4 shots, 3 hits, and at
0 shots. -/
theorem getHitRate_no_div_by_zero_witness :
    getHitRate 4 3 = (3 : ℚ) / 4 ∧ getHitRate 0 3 = 0 :=
  ⟨(getHitRate_no_div_by_zero 4 3).1 (by norm_num),
    (getHitRate_no_div_by_zero 0 3).2 rfl⟩

/-- Blended internal velocity of one `applyDragLock` call: the lerp of the
stored velocity toward `delta * force` by the smoothing factor, with the
force selected by the long-range test, exactly as in source lines 150–158. -/
def blendedVelocity (sqrtQ : ℚ → ℚ) (cfg : Config) (s : EnhancedDragLock)
    (currentPos targetPos : Vector3) : Vector3 :=
  let delta := targetPos.subtract currentPos
  let force := if delta.length sqrtQ > cfg.maxDistance then
    cfg.dragForce * cfg.longRangeMultiplier else cfg.dragForce
  s.velocity.lerp (delta.multiply force) cfg.smoothingFactor

/-- Snap condition of `applyDragLock` (source lines 165–167): distance below
the snap threshold, post-blend velocity magnitude below the velocity
threshold, snapping enabled. -/
def snapCondition (sqrtQ : ℚ → ℚ) (cfg : Config) (s : EnhancedDragLock)
    (currentPos targetPos : Vector3) : Prop :=
  (targetPos.subtract currentPos).length sqrtQ < cfg.snapThreshold ∧
  (blendedVelocity sqrtQ cfg s currentPos targetPos).length sqrtQ <
    cfg.velocityThreshold ∧
  cfg.enableSnap = true

instance (sqrtQ : ℚ → ℚ) (cfg : Config) (s : EnhancedDragLock)
    (currentPos targetPos : Vector3) :
    Decidable (snapCondition sqrtQ cfg s currentPos targetPos) := by
  unfold snapCondition
  infer_instance

/-- Unfolding lemma: one `applyDragLock` call written with the blended
velocity and the snap condition named. -/
theorem applyDragLock_eq (sqrtQ : ℚ → ℚ) (cfg : Config) (s : EnhancedDragLock)
    (currentPos targetPos : Vector3) (dt : ℚ) :
    EnhancedDragLock.applyDragLock sqrtQ cfg s currentPos targetPos dt =
      (if snapCondition sqrtQ cfg s currentPos targetPos then
        ({ s with velocity := blendedVelocity sqrtQ cfg s currentPos targetPos },
          targetPos)
      else
        ({ velocity := blendedVelocity sqrtQ cfg s currentPos targetPos,
           lastPosition := currentPos.add
             ((blendedVelocity sqrtQ cfg s currentPos targetPos).multiply dt) },
          currentPos.add
            ((blendedVelocity sqrtQ cfg s currentPos targetPos).multiply dt))) := by
  simp only [EnhancedDragLock.applyDragLock, blendedVelocity, snapCondition]

/-- C3: when the distance is below `snapThreshold`, the post-blend velocity
magnitude is below `velocityThreshold` and snapping is enabled, the motion
controller returns the target exactly; otherwise it returns
`current + velocity*dt` with `velocity` the smoothed blend
`lerp(oldVelocity, delta*force, smoothingFactor)`. -/
theorem applyDragLock_snap_or_smooth (sqrtQ : ℚ → ℚ) (cfg : Config)
    (s : EnhancedDragLock) (currentPos targetPos : Vector3) (dt : ℚ) :
    (snapCondition sqrtQ cfg s currentPos targetPos →
      (EnhancedDragLock.applyDragLock sqrtQ cfg s currentPos targetPos dt).2 =
        targetPos) ∧
    (¬ snapCondition sqrtQ cfg s currentPos targetPos →
      (EnhancedDragLock.applyDragLock sqrtQ cfg s currentPos targetPos dt).2 =
        currentPos.add
          ((blendedVelocity sqrtQ cfg s currentPos targetPos).multiply dt)) := by
  rw [applyDragLock_eq]
  by_cases h : snapCondition sqrtQ cfg s currentPos targetPos <;> simp [h]

/-- Snap-friendly configuration for the witnesses: wide snap and velocity
thresholds, blend coefficient 1 so all quantities stay integral. -/
def cfgSnap : Config :=
  { enhancedConfig with
    snapThreshold := 10
    velocityThreshold := 10
    maxDistance := 100
    smoothingFactor := 1
    dragForce := 1 }

/-- Controller state at rest at the origin. -/
def dragLock0 : EnhancedDragLock :=
  { velocity := Vector3.zero, lastPosition := Vector3.zero }

/-- Witness for `applyDragLock_snap_or_smooth`: from the origin toward
(3,4,0) (distance 5) under `cfgSnap`, the snap condition holds and the call
returns the target exactly. -/
theorem applyDragLock_snap_or_smooth_witness :
    snapCondition ratSqrt cfgSnap dragLock0 ⟨0,0,0⟩ ⟨3,4,0⟩ ∧
    (EnhancedDragLock.applyDragLock ratSqrt cfgSnap dragLock0 ⟨0,0,0⟩ ⟨3,4,0⟩
      (1/144)).2 = ⟨3,4,0⟩ := by
  have h : snapCondition ratSqrt cfgSnap dragLock0 ⟨0,0,0⟩ ⟨3,4,0⟩ := by
    unfold snapCondition blendedVelocity
    norm_num [Vector3.subtract, Vector3.length, Vector3.lerp, Vector3.multiply,
      Vector3.add, Vector3.zero, ratSqrt, cfgSnap, enhancedConfig, dragLock0,
      Rat.num_ofNat, Rat.den_ofNat, Int.toNat]
  exact ⟨h,
    (applyDragLock_snap_or_smooth ratSqrt cfgSnap dragLock0 ⟨0,0,0⟩ ⟨3,4,0⟩
      (1/144)).1 h⟩

/-- C10: every `applyDragLock` call rewrites the stored velocity to the
blend toward `delta*force`, also on the snap branch; the snap branch leaves
`lastPosition` untouched, while the non-snap branch stores the returned
candidate in `lastPosition`. -/
theorem applyDragLock_state_effects (sqrtQ : ℚ → ℚ) (cfg : Config)
    (s : EnhancedDragLock) (currentPos targetPos : Vector3) (dt : ℚ) :
    (EnhancedDragLock.applyDragLock sqrtQ cfg s currentPos targetPos dt).1.velocity =
      blendedVelocity sqrtQ cfg s currentPos targetPos ∧
    (snapCondition sqrtQ cfg s currentPos targetPos →
      (EnhancedDragLock.applyDragLock sqrtQ cfg s currentPos targetPos
        dt).1.lastPosition = s.lastPosition) ∧
    (¬ snapCondition sqrtQ cfg s currentPos targetPos →
      (EnhancedDragLock.applyDragLock sqrtQ cfg s currentPos targetPos
        dt).1.lastPosition =
        (EnhancedDragLock.applyDragLock sqrtQ cfg s currentPos targetPos dt).2) := by
  rw [applyDragLock_eq]
  by_cases h : snapCondition sqrtQ cfg s currentPos targetPos <;> simp [h]

/-- Witness for `applyDragLock_state_effects`: on the snap branch of the
concrete call the velocity is still re-blended while `lastPosition` keeps
its old value. -/
theorem applyDragLock_state_effects_witness :
    snapCondition ratSqrt cfgSnap dragLock0 ⟨0,0,0⟩ ⟨3,4,0⟩ ∧
    (EnhancedDragLock.applyDragLock ratSqrt cfgSnap dragLock0 ⟨0,0,0⟩ ⟨3,4,0⟩
      (1/144)).1.lastPosition = dragLock0.lastPosition := by
  have h : snapCondition ratSqrt cfgSnap dragLock0 ⟨0,0,0⟩ ⟨3,4,0⟩ := by
    unfold snapCondition blendedVelocity
    norm_num [Vector3.subtract, Vector3.length, Vector3.lerp, Vector3.multiply,
      Vector3.add, Vector3.zero, ratSqrt, cfgSnap, enhancedConfig, dragLock0,
      Rat.num_ofNat, Rat.den_ofNat, Int.toNat]
  exact ⟨h,
    (applyDragLock_state_effects ratSqrt cfgSnap dragLock0 ⟨0,0,0⟩ ⟨3,4,0⟩
      (1/144)).2.1 h⟩

/-- Sum of a list of vectors. -/
def vecSum (l : List Vector3) : Vector3 := l.foldr Vector3.add Vector3.zero

/-- Velocities of the consecutive sample pairs with positive elapsed time,
as a list: the spec-side reformulation of the prediction loop, used to state
what `velocitySum` adds up. -/
def pairVelocities (l : List (Vector3 × ℚ)) : List Vector3 :=
  (l.zip l.tail).filterMap fun p =>
    if (p.2.2 - p.1.2) / 1000 > 0 then
      some ((p.2.1.subtract p.1.1).multiply (1 / ((p.2.2 - p.1.2) / 1000)))
    else none

theorem Vector3.zero_add (v : Vector3) : Vector3.zero.add v = v := by
  simp [Vector3.add, Vector3.zero]

theorem vecSum_cons (v : Vector3) (l : List Vector3) :
    vecSum (v :: l) = v.add (vecSum l) := rfl

/-- The prediction loop adds up exactly the velocities of the
positive-elapsed-time consecutive pairs. -/
theorem velocitySum_eq (l : List (Vector3 × ℚ)) :
    velocitySum l = vecSum (pairVelocities l) := by
  induction l with
  | nil => rfl
  | cons a t ih =>
    cases t with
    | nil => rfl
    | cons b rest =>
      by_cases hdt : a.2 < b.2
      · simp [velocitySum, pairVelocities, List.filterMap_cons, vecSum, hdt, ih,
          Vector3.zero_add]
      · simp [velocitySum, pairVelocities, List.filterMap_cons, vecSum, hdt, ih,
          Vector3.zero_add]

/-- History whose first two samples carry the same timestamp: the first pair
is skipped by the loop, but the sum is still divided by 2. -/
def histSkip : List (Vector3 × ℚ) :=
  [(⟨0,0,0⟩, 0), (⟨0,0,0⟩, 0), (⟨1,0,0⟩, 1000)]

/-- C5 counterexample: on `histSkip` only one pairwise velocity, (1,0,0), is
computed (the first pair has zero elapsed time), so the claimed average of
the computed velocities is (1,0,0) and the claimed prediction at
`timeAhead = 2` is (3,0,0); the code divides the sum by `recent.length - 1`
= 2 and returns (2,0,0). -/
theorem predictPosition_claimed_average_false :
    predictPosition histSkip 2 = ⟨2,0,0⟩ ∧
    ¬ (predictPosition histSkip 2 = ⟨3,0,0⟩) := by
  have h : predictPosition histSkip 2 = ⟨2,0,0⟩ := by
    norm_num [predictPosition, histSkip, velocitySum, Vector3.add,
      Vector3.subtract, Vector3.multiply, Vector3.zero]
  refine ⟨h, ?_⟩
  rw [h]
  intro hc
  have hx := congrArg Vector3.x hc
  norm_num at hx

/-- C5 (amended): with at least 2 samples, `predict(timeAhead)` takes the up
to 3 most recent samples, sums the pairwise velocities of the consecutive
pairs with positive elapsed time (skipping the others), divides the sum by
`recent.length - 1` — the number of consecutive pairs, not the number of
computed velocities — and extrapolates from the most recent sample. -/
theorem predictPosition_characterization (hist : List (Vector3 × ℚ)) (ta : ℚ)
    (h : 2 ≤ hist.length) :
    predictPosition hist ta =
      (((hist.get? (hist.length - 1)).map Prod.fst).getD Vector3.zero).add
        (((vecSum (pairVelocities (hist.drop (hist.length - 3)))).multiply
          (1 / (((hist.drop (hist.length - 3)).length : ℚ) - 1))).multiply ta) := by
  rw [predictPosition.eq_def, if_neg (by omega)]
  simp only [velocitySum_eq]

/-- Two-sample history for the prediction witness. -/
def histTwo : List (Vector3 × ℚ) := [(⟨0,0,0⟩, 0), (⟨1,2,0⟩, 1000)]

/-- Witness for `predictPosition_characterization`: with samples (0,0,0) at
0 ms and (1,2,0) at 1000 ms, the velocity is (1,2,0)/s and the prediction 3 s
ahead is (4,8,0). -/
theorem predictPosition_characterization_witness :
    2 ≤ histTwo.length ∧ predictPosition histTwo 3 = ⟨4,8,0⟩ := by
  refine ⟨by norm_num [histTwo], ?_⟩
  rw [predictPosition_characterization histTwo 3 (by norm_num [histTwo])]
  norm_num [histTwo, pairVelocities, vecSum, Vector3.add, Vector3.subtract,
    Vector3.multiply, Vector3.zero, List.filterMap_cons, List.zip_cons_cons]

theorem pickBest_ne_nil {cfg : Config} {cur : Option Target} {l : List Target}
    {b : Target} (h : pickBest cfg cur l = some b) : l ≠ [] := by
  intro he
  rw [he] at h
  simp [pickBest] at h

/-- When the selection loop produces a best target, `getBestTarget` is the
switching logic applied to it (the two emptiness guards cannot fire). -/
theorem getBestTarget_eq_switchLogic (sqrtQ : ℚ → ℚ) (cfg : Config)
    (st : TMState) (cam : Vector3) (now : ℚ) (b : Target)
    (hb : pickBest cfg st.currentTarget
      ((st.targets.filter (isValidTarget cfg now)).map (withDistance sqrtQ cam)) =
      some b) :
    getBestTarget sqrtQ cfg st cam now =
      switchLogic cfg st
        (st.targets.map fun t =>
          if isValidTarget cfg now t then withDistance sqrtQ cam t else t) b := by
  have hvd := pickBest_ne_nil hb
  have hval : st.targets.filter (isValidTarget cfg now) ≠ [] := by
    intro he
    apply hvd
    rw [he]
    rfl
  have hts : st.targets ≠ [] := by
    intro he
    apply hval
    rw [he]
    rfl
  have hb1 : st.targets.isEmpty = false := by
    cases h : st.targets with
    | nil => exact absurd h hts
    | cons x xs => rfl
  have hb2 : (st.targets.filter (isValidTarget cfg now)).isEmpty = false := by
    cases h : st.targets.filter (isValidTarget cfg now) with
    | nil => exact absurd h hval
    | cons x xs => rfl
  simp only [getBestTarget]
  rw [if_neg (by simp [hb1]), if_neg (by simp [hb2]), hb]

/-- Deferral branch of the switching logic: a different best while the
cooldown is active and instant switch is off keeps the prior selection and
does not touch the cooldown. -/
theorem switchLogic_defer (cfg : Config) (st : TMState) (nt : List Target)
    (b c : Target) (hcur : st.currentTarget = some c) (hne : c.id ≠ b.id)
    (hcd : st.switchCooldown > 0 ∧ cfg.instantSwitch = false) :
    switchLogic cfg st nt b = ({ st with targets := nt }, some c) := by
  simp [switchLogic, hcur, hne, hcd.1, hcd.2]

/-- Commit branch of the switching logic: a different best with the cooldown
inactive or instant switch on commits the switch and arms the cooldown. -/
theorem switchLogic_commit (cfg : Config) (st : TMState) (nt : List Target)
    (b c : Target) (hcur : st.currentTarget = some c) (hne : c.id ≠ b.id)
    (hcd : ¬ (st.switchCooldown > 0 ∧ cfg.instantSwitch = false)) :
    switchLogic cfg st nt b =
      ({ targets := nt, currentTarget := some b,
         switchCooldown := cfg.switchDelay }, some b) := by
  simp [switchLogic, hne, hcur, hcd]

/-- C2: with a current selection `c` and a differing computed best `b`, an
active cooldown with instant switch off defers the switch — the call returns
`c` and neither the cooldown nor the stored selection changes — while an
inactive cooldown or instant switch on commits the switch and sets the
cooldown to the configured switch delay. -/
theorem getBestTarget_hysteresis (sqrtQ : ℚ → ℚ) (cfg : Config) (st : TMState)
    (cam : Vector3) (now : ℚ) (c b : Target)
    (hcur : st.currentTarget = some c)
    (hb : pickBest cfg st.currentTarget
      ((st.targets.filter (isValidTarget cfg now)).map (withDistance sqrtQ cam)) =
      some b)
    (hne : b.id ≠ c.id) :
    (st.switchCooldown > 0 ∧ cfg.instantSwitch = false →
      (getBestTarget sqrtQ cfg st cam now).2 = some c ∧
      (getBestTarget sqrtQ cfg st cam now).1.switchCooldown = st.switchCooldown ∧
      (getBestTarget sqrtQ cfg st cam now).1.currentTarget = some c) ∧
    (st.switchCooldown ≤ 0 ∨ cfg.instantSwitch = true →
      (getBestTarget sqrtQ cfg st cam now).2 = some b ∧
      (getBestTarget sqrtQ cfg st cam now).1.switchCooldown = cfg.switchDelay ∧
      (getBestTarget sqrtQ cfg st cam now).1.currentTarget = some b) := by
  rw [getBestTarget_eq_switchLogic sqrtQ cfg st cam now b hb]
  constructor
  · intro hcd
    rw [switchLogic_defer cfg st _ b c hcur (Ne.symm hne) hcd]
    exact ⟨rfl, rfl, by rw [hcur]⟩
  · intro h
    have hcd : ¬ (st.switchCooldown > 0 ∧ cfg.instantSwitch = false) := by
      rcases h with h | h
      · exact fun hc => absurd hc.1 (not_lt.mpr h)
      · intro hc
        rw [h] at hc
        exact absurd hc.2 (by simp)
    rw [switchLogic_commit cfg st _ b c hcur (Ne.symm hne) hcd]
    exact ⟨rfl, rfl, rfl⟩

/-- Observer position used in the registry witnesses. -/
def camW : Vector3 := ⟨0,0,0⟩

/-- Registry configuration for the witnesses: the `EnhancedConfig` values
with a 50-unit score-normalization distance. -/
def cfgReg : Config := { enhancedConfig with maxTargetDistance := 50 }

/-- Low-priority visible entity, id 1, 4 units from the observer. -/
def tgtAv : Target :=
  { id := 1, position := ⟨0,0,4⟩, priority := 1, targetType := "head",
    lastSeen := 900, isVisible := true, health := 100, distance := 0 }

/-- High-priority entity, id 2, 3 units from the observer (visibility is set
per scenario). -/
def tgtB : Target :=
  { id := 2, position := ⟨0,0,3⟩, priority := 5, targetType := "head",
    lastSeen := 900, isVisible := false, health := 100, distance := 0 }

/-- Registry state for the hysteresis witness: both entities valid, entity 1
selected, cooldown at 50 ms. -/
def stC2 : TMState :=
  { targets := [tgtAv, { tgtB with isVisible := true }],
    currentTarget := some tgtAv, switchCooldown := 50 }

/-- Witness for `getBestTarget_hysteresis`: entity 2 scores 577 against the
current selection's 196, yet the call returns entity 1 because the cooldown
is active and instant switch is off. -/
theorem getBestTarget_hysteresis_witness :
    stC2.currentTarget = some tgtAv ∧
    pickBest cfgReg stC2.currentTarget
      ((stC2.targets.filter (isValidTarget cfgReg 1000)).map
        (withDistance ratSqrt camW)) =
      some (withDistance ratSqrt camW { tgtB with isVisible := true }) ∧
    (withDistance ratSqrt camW { tgtB with isVisible := true }).id ≠ tgtAv.id ∧
    (getBestTarget ratSqrt cfgReg stC2 camW 1000).2 = some tgtAv := by
  have hb : pickBest cfgReg stC2.currentTarget
      ((stC2.targets.filter (isValidTarget cfgReg 1000)).map
        (withDistance ratSqrt camW)) =
      some (withDistance ratSqrt camW { tgtB with isVisible := true }) := by
    norm_num [stC2, tgtAv, tgtB, cfgReg, enhancedConfig, camW, isValidTarget,
      withDistance, pickBest, pickBestAux, calculateTargetScore,
      Vector3.distanceTo, ratSqrt, List.filter_cons, Bool.and_eq_true,
      decide_eq_true_eq, max_def, Int.toNat, Rat.num_ofNat, Rat.den_ofNat]
  have hne : (withDistance ratSqrt camW { tgtB with isVisible := true }).id ≠
      tgtAv.id := by
    norm_num [withDistance, tgtB, tgtAv]
  refine ⟨rfl, hb, hne, ?_⟩
  exact ((getBestTarget_hysteresis ratSqrt cfgReg stC2 camW 1000 tgtAv
    (withDistance ratSqrt camW { tgtB with isVisible := true }) rfl hb hne).1
    ⟨by norm_num [stC2], rfl⟩).1

/-- Registry state for the single-valid-entity counterexample: entity 1 is
invisible (invalid) but still the stored selection; entity 2 is the only
valid entity; the cooldown is active. -/
def stC7 : TMState :=
  { targets := [{ tgtAv with isVisible := false }, { tgtB with isVisible := true }],
    currentTarget := some { tgtAv with isVisible := false }, switchCooldown := 50 }

/-- C7 counterexample: the registry holds exactly one valid entity (id 2),
yet `selectBest` returns the stale current selection (id 1), because the
switch-deferral path fires for the invalid prior selection while the
cooldown is active. -/
theorem getBestTarget_single_valid_claim_false :
    (stC7.targets.filter (isValidTarget cfgReg 1000)).map Target.id = [2] ∧
    Option.map Target.id (getBestTarget ratSqrt cfgReg stC7 camW 1000).2 =
      some 1 ∧ (1 : ℕ) ≠ 2 := by
  refine ⟨by norm_num [stC7, tgtAv, tgtB, cfgReg, enhancedConfig, isValidTarget,
    List.filter_cons, Bool.and_eq_true, decide_eq_true_eq], ?_, by norm_num⟩
  have hb : pickBest cfgReg stC7.currentTarget
      ((stC7.targets.filter (isValidTarget cfgReg 1000)).map
        (withDistance ratSqrt camW)) =
      some (withDistance ratSqrt camW { tgtB with isVisible := true }) := by
    norm_num [stC7, tgtAv, tgtB, cfgReg, enhancedConfig, camW, isValidTarget,
      withDistance, pickBest, pickBestAux, List.filter_cons, Bool.and_eq_true,
      decide_eq_true_eq]
  rw [getBestTarget_eq_switchLogic ratSqrt cfgReg stC7 camW 1000 _ hb]
  rw [switchLogic_defer cfgReg stC7 _ _ { tgtAv with isVisible := false } rfl
    (by norm_num [withDistance, tgtB, tgtAv]) ⟨by norm_num [stC7], rfl⟩]
  norm_num [tgtAv]

/-- C7 (amended): with exactly one valid entity, `selectBest` returns it
regardless of its score, provided the stale-selection deferral path cannot
fire: no current selection, or the selection is that entity, or the cooldown
is inactive, or instant switch is on.  (The counterexample shows the proviso
is necessary.) -/
theorem getBestTarget_single_valid (sqrtQ : ℚ → ℚ) (cfg : Config)
    (st : TMState) (cam : Vector3) (now : ℚ) (t : Target)
    (hvalid : st.targets.filter (isValidTarget cfg now) = [t])
    (hfree : ∀ c, st.currentTarget = some c → c.id ≠ t.id →
      st.switchCooldown ≤ 0 ∨ cfg.instantSwitch = true) :
    Option.map Target.id (getBestTarget sqrtQ cfg st cam now).2 = some t.id := by
  have hb : pickBest cfg st.currentTarget
      ((st.targets.filter (isValidTarget cfg now)).map (withDistance sqrtQ cam)) =
      some (withDistance sqrtQ cam t) := by
    rw [hvalid]
    rfl
  rw [getBestTarget_eq_switchLogic sqrtQ cfg st cam now _ hb]
  rcases hcb : st.currentTarget with _ | c
  · simp [switchLogic, hcb, withDistance]
  · by_cases hid : c.id = (withDistance sqrtQ cam t).id
    · simp [switchLogic, hcb, hid, withDistance]
    · have hcd : ¬ (st.switchCooldown > 0 ∧ cfg.instantSwitch = false) := by
        have hfr := hfree c hcb (by
          intro he
          exact hid (by rw [he, withDistance]))
        rcases hfr with h | h
        · exact fun hc => absurd hc.1 (not_lt.mpr h)
        · intro hc
          rw [h] at hc
          exact absurd hc.2 (by simp)
      rw [switchLogic_commit cfg st _ _ c hcb hid hcd]
      simp [withDistance]

/-- Registry state with a single valid entity and no current selection, for
the single-valid witness. -/
def stW7 : TMState :=
  { targets := [{ tgtB with isVisible := true }], currentTarget := none,
    switchCooldown := 0 }

/-- Witness for `getBestTarget_single_valid`: a one-entity registry with no
prior selection returns that entity. -/
theorem getBestTarget_single_valid_witness :
    stW7.targets.filter (isValidTarget cfgReg 1000) =
      [{ tgtB with isVisible := true }] ∧
    Option.map Target.id (getBestTarget ratSqrt cfgReg stW7 camW 1000).2 =
      some ({ tgtB with isVisible := true } : Target).id := by
  have hv : stW7.targets.filter (isValidTarget cfgReg 1000) =
      [{ tgtB with isVisible := true }] := by
    norm_num [stW7, tgtB, cfgReg, enhancedConfig, isValidTarget,
      List.filter_cons, Bool.and_eq_true, decide_eq_true_eq]
  exact ⟨hv, getBestTarget_single_valid ratSqrt cfgReg stW7 camW 1000 _ hv
    (fun c hc _ => by simp [stW7] at hc)⟩

/-- Trigger state with the adaptive accuracy at its lower clamp 0.1, ready
to fire. -/
def afMiss : SmartAutoFire :=
  { lastFireTime := 0, consecutiveHits := 0, accuracy := 1/10 }

/-- C8 counterexample: fire-on-lock is enabled, the lock duration exceeds
the minimum and the alignment quality 0.95 exceeds 0.9, so the trigger is
invoked — but the stochastic draw 0.99 misses (hit chance 0.095), `fire`
returns failure, and neither the shot counter nor the hit counter is
incremented: both counters are gated on the stochastic outcome, not on
invocation. -/
theorem autoFireStep_claimed_counters_false :
    enhancedConfig.fireOnLock = true ∧ (1 : ℚ) > enhancedConfig.minLockTime ∧
    (95 : ℚ)/100 > 9/10 ∧
    (autoFireStep enhancedConfig afMiss 1000 1 (95/100) 10 (99/100) 0 0).2.1 = 0 ∧
    (autoFireStep enhancedConfig afMiss 1000 1 (95/100) 10 (99/100) 0 0).2.2 = 0 := by
  refine ⟨rfl, by norm_num [enhancedConfig], by norm_num, ?_, ?_⟩ <;>
    norm_num [autoFireStep, SmartAutoFire.fire, SmartAutoFire.canFire, afMiss,
      enhancedConfig]

/-- C8 (amended): on every tick on which the trigger is invoked (fire-on-lock
enabled and lock duration above the minimum lock time), the trigger state
advances to the post-`fire` state, the shot counter is incremented exactly
when `fire` reports a hit, and the hit counter is incremented exactly when
`fire` reports a hit and the alignment quality exceeds 0.9. -/
theorem autoFireStep_counters (cfg : Config) (af : SmartAutoFire)
    (now lockDuration acc dist rnd : ℚ) (shots hits : ℕ)
    (hinv : cfg.fireOnLock = true ∧ lockDuration > cfg.minLockTime) :
    (autoFireStep cfg af now lockDuration acc dist rnd shots hits).1 =
      (af.fire cfg now dist acc rnd).1 ∧
    (autoFireStep cfg af now lockDuration acc dist rnd shots hits).2.1 =
      (if (af.fire cfg now dist acc rnd).2 = true then shots + 1 else shots) ∧
    (autoFireStep cfg af now lockDuration acc dist rnd shots hits).2.2 =
      (if (af.fire cfg now dist acc rnd).2 = true ∧ acc > 9/10 then hits + 1
       else hits) := by
  unfold autoFireStep
  rw [if_pos hinv]
  by_cases hf : (af.fire cfg now dist acc rnd).2 = true
  · by_cases ha : acc > 9/10
    · simp [hf, ha]
    · simp [hf, ha]
  · simp [hf]

/-- Witness for `autoFireStep_counters`: same invocation with a lucky draw
(0): `fire` hits, so the shot counter and — with quality 0.95 — the hit
counter both advance. -/
theorem autoFireStep_counters_witness :
    enhancedConfig.fireOnLock = true ∧ (1 : ℚ) > enhancedConfig.minLockTime ∧
    (autoFireStep enhancedConfig afMiss 1000 1 (95/100) 10 0 0 0).2.1 = 1 ∧
    (autoFireStep enhancedConfig afMiss 1000 1 (95/100) 10 0 0 0).2.2 = 1 := by
  have h := autoFireStep_counters enhancedConfig afMiss 1000 1 (95/100) 10 0 0 0
    ⟨rfl, by norm_num [enhancedConfig]⟩
  have hf : (afMiss.fire enhancedConfig 1000 10 (95/100) 0).2 = true := by
    norm_num [SmartAutoFire.fire, SmartAutoFire.canFire, afMiss, enhancedConfig]
  refine ⟨rfl, by norm_num [enhancedConfig], ?_, ?_⟩
  · rw [h.2.1, if_pos hf]
  · rw [h.2.2, if_pos ⟨hf, by norm_num⟩]

end Ryper
